import Mathlib

/-!
Shallow embedding of the schema serialization layer in
`ibm_watsonx_ai/foundation_models/schema/_api.py`:
the `BaseSchema` dataclass with `from_dict`, `to_dict` (with its inner
`unpack`), `show` / `get_sample_params`, and the concrete schema shapes
declared in that file (`ReturnOptionProperties`, `TextGenParameters`,
`TextChatResponseFormat`, `TextChatParameters`, `RerankReturnOptions`,
`RerankParameters`), together with the enumerations
`TextGenDecodingMethod` and `TextChatResponseFormatType` and the plain
dataclass `TextGenLengthPenalty`.

Python runtime values are embedded as the inductive type `PyVal`;
dataclass instances are embedded as their `__dict__`: the association
list of all declared fields in declaration order (the generated
`__init__` assigns every field, defaulting to `None`).
-/

/-- Names of the `BaseSchema` subclasses declared in the source file.
`BaseSchema` itself is included: it declares no fields and inherits the
empty `get_sample_params`. `TextGenLengthPenalty` is deliberately not
here: it is a plain dataclass that does not subclass `BaseSchema`. -/
inductive SchemaName where
  | baseSchema
  | returnOptionProperties
  | textGenParameters
  | textChatResponseFormat
  | textChatParameters
  | rerankReturnOptions
  | rerankParameters
  deriving DecidableEq

/-- Embedding of the Python runtime values that the layer manipulates:
strings, numbers (Python `int` and `float` are collapsed into one
numeric constructor, as no claim distinguishes them and no arithmetic is
performed), booleans, `None`, enumeration members (carrying the symbolic
name and the underlying string value), lists, plain `dict`s with string
keys, and dataclass instances (class name plus `__dict__` in declaration
order). -/
inductive PyVal where
  | str (s : String)
  | num (q : Rat)
  | bool (b : Bool)
  | none
  | enum (symName : String) (strVal : String)
  | list (xs : List PyVal)
  | dict (entries : List (String × PyVal))
  | inst (cls : String) (objDict : List (String × PyVal))

/-- Embedding of the Python identity test `v is None`: true exactly for
the `None` singleton (so `False`, `0`, `""`, `[]`, `{}` are all kept). -/
def isNoneVal : PyVal → Bool
  | .none => true
  | _ => false

/-- Embedding of `k.startswith("_")` from `to_dict`: since the sought
marker is the single character underscore, a name starts with it exactly
when its first character is an underscore (and the empty string does not
start with it). -/
def isPrivateName (k : String) : Bool :=
  match k.data with
  | [] => false
  | c :: _ => c == '_'

/-- Embedding of the annotation expressions (`field.type`) occurring in
the source. `genericT` stands for a parameterized generic alias whose
origin class is a `BaseSchema` subclass; no annotation in the source
file is of that form, but it is the only form on which
`typing.get_origin` can return a `BaseSchema` subclass, so it is kept to
make that branch of `from_dict` representable. -/
inductive TypeExpr where
  | strT
  | intT
  | floatT
  | boolT
  | dictT
  | noneT
  | enumT (enumName : String)
  | schemaT (s : SchemaName)
  | dataT (clsName : String)
  | listT (elem : TypeExpr)
  | unionT (alts : List TypeExpr)
  | genericT (s : SchemaName) (args : List TypeExpr)

/-- The classes that `typing.get_origin` can return on the annotations
above: `types.UnionType` for PEP 604 unions `X | Y`, `list` for
`list[T]`, and a `BaseSchema` subclass for a generic alias over one. -/
inductive OriginCls where
  | unionType
  | listCls
  | schemaCls (s : SchemaName)

/-- Embedding of `typing.get_origin(field_type)`: the origin of a PEP
604 union is `types.UnionType` (never one of the union's members), the
origin of `list[T]` is `list`, the origin of a subscripted generic alias
is the class being subscripted, and every unparameterized annotation
(a bare class such as `str`, `dict`, or a dataclass) has no origin. -/
def getOrigin : TypeExpr → Option OriginCls
  | .unionT _ => some .unionType
  | .listT _ => some .listCls
  | .genericT s _ => some (.schemaCls s)
  | _ => Option.none

/-- Embedding of `issubclass(origin, BaseSchema)` for the possible
origin classes: `types.UnionType` and `list` are not `BaseSchema`
subclasses. -/
def issubclassBaseSchema : OriginCls → Bool
  | .schemaCls _ => true
  | .unionType => false
  | .listCls => false

/-- Embedding of `hasattr(origin, "from_dict")` for a `BaseSchema`
subclass: `from_dict` is a classmethod declared on `BaseSchema`, so
every subclass inherits it. -/
def hasFromDictAttr (_s : SchemaName) : Bool := true

/-- The `__name__` of each schema class. -/
def className : SchemaName → String
  | .baseSchema => "BaseSchema"
  | .returnOptionProperties => "ReturnOptionProperties"
  | .textGenParameters => "TextGenParameters"
  | .textChatResponseFormat => "TextChatResponseFormat"
  | .textChatParameters => "TextChatParameters"
  | .rerankReturnOptions => "RerankReturnOptions"
  | .rerankParameters => "RerankParameters"

/-- Declared fields of `ReturnOptionProperties`, in declaration order. -/
def returnOptionPropertiesFields : List (String × TypeExpr) :=
  [ ("input_text", .unionT [.boolT, .noneT]),
    ("generated_tokens", .unionT [.boolT, .noneT]),
    ("input_tokens", .unionT [.boolT, .noneT]),
    ("token_logprobs", .unionT [.boolT, .noneT]),
    ("token_ranks", .unionT [.boolT, .noneT]),
    ("top_n_tokens", .unionT [.boolT, .noneT]) ]

/-- Declared fields of `TextGenParameters`, in declaration order. -/
def textGenParametersFields : List (String × TypeExpr) :=
  [ ("decoding_method", .unionT [.strT, .enumT "TextGenDecodingMethod", .noneT]),
    ("length_penalty", .unionT [.dictT, .dataT "TextGenLengthPenalty", .noneT]),
    ("temperature", .unionT [.floatT, .noneT]),
    ("top_p", .unionT [.floatT, .noneT]),
    ("top_k", .unionT [.intT, .noneT]),
    ("random_seed", .unionT [.intT, .noneT]),
    ("repetition_penalty", .unionT [.floatT, .noneT]),
    ("min_new_tokens", .unionT [.intT, .noneT]),
    ("max_new_tokens", .unionT [.intT, .noneT]),
    ("stop_sequences", .unionT [.listT .strT, .noneT]),
    ("time_limit", .unionT [.intT, .noneT]),
    ("truncate_input_tokens", .unionT [.intT, .noneT]),
    ("return_options", .unionT [.dictT, .schemaT .returnOptionProperties, .noneT]),
    ("include_stop_sequence", .unionT [.boolT, .noneT]),
    ("prompt_variables", .unionT [.dictT, .noneT]) ]

/-- Declared fields of `TextChatResponseFormat`, in declaration order. -/
def textChatResponseFormatFields : List (String × TypeExpr) :=
  [ ("type", .unionT [.strT, .enumT "TextChatResponseFormatType", .noneT]) ]

/-- Declared fields of `TextChatParameters`, in declaration order. -/
def textChatParametersFields : List (String × TypeExpr) :=
  [ ("frequency_penalty", .unionT [.floatT, .noneT]),
    ("logprobs", .unionT [.boolT, .noneT]),
    ("top_logprobs", .unionT [.intT, .noneT]),
    ("presence_penalty", .unionT [.floatT, .noneT]),
    ("response_format", .unionT [.dictT, .schemaT .textChatResponseFormat, .noneT]),
    ("temperature", .unionT [.floatT, .noneT]),
    ("max_tokens", .unionT [.intT, .noneT]),
    ("time_limit", .unionT [.intT, .noneT]),
    ("top_p", .unionT [.floatT, .noneT]),
    ("n", .unionT [.intT, .noneT]) ]

/-- Declared fields of `RerankReturnOptions`, in declaration order. -/
def rerankReturnOptionsFields : List (String × TypeExpr) :=
  [ ("top_n", .unionT [.intT, .noneT]),
    ("inputs", .unionT [.boolT, .noneT]),
    ("query", .unionT [.boolT, .noneT]) ]

/-- Declared fields of `RerankParameters`, in declaration order. -/
def rerankParametersFields : List (String × TypeExpr) :=
  [ ("truncate_input_tokens", .unionT [.intT, .noneT]),
    ("return_options", .unionT [.dictT, .schemaT .rerankReturnOptions, .noneT]) ]

/-- Embedding of `dataclasses.fields(cls)`: the declared fields of each
schema class, in declaration order. `BaseSchema` declares none. -/
def fieldsOf : SchemaName → List (String × TypeExpr)
  | .baseSchema => []
  | .returnOptionProperties => returnOptionPropertiesFields
  | .textGenParameters => textGenParametersFields
  | .textChatResponseFormat => textChatResponseFormatFields
  | .textChatParameters => textChatParametersFields
  | .rerankReturnOptions => rerankReturnOptionsFields
  | .rerankParameters => rerankParametersFields

/-- Members of the `TextGenDecodingMethod` enumeration, in definition
order, as (symbolic name, underlying string value) pairs. -/
def textGenDecodingMethodMembers : List (String × String) :=
  [ ("GREEDY", "greedy"), ("SAMPLE", "sample") ]

/-- Members of the `TextChatResponseFormatType` enumeration. -/
def textChatResponseFormatTypeMembers : List (String × String) :=
  [ ("JSON_OBJECT", "json_object") ]

/-- Python `dict` lookup `m[k]` / `k in m` on an association list
(first match; Python dict keys are unique). -/
def pyLookup {α : Type} : List (String × α) → String → Option α
  | [], _ => Option.none
  | (k, v) :: rest, n => if k = n then some v else pyLookup rest n

/-- Errors a call can raise: a `TypeError` (e.g. subscripting a
non-mapping) or Python's `RecursionError` when the interpreter's
recursion limit is exhausted. -/
inductive PyErr where
  | typeErr
  | recursionErr
  deriving DecidableEq

/-- Embedding of the per-field value step of `BaseSchema.from_dict`:

    origin = get_origin(field_type)
    if origin is not None and issubclass(origin, BaseSchema):
        if hasattr(origin, "from_dict"):
            value = origin.from_dict(value)

`rec` is the recursive `from_dict` entry point, passed explicitly so
that this step can be stated independently of the fuel. -/
def decodeValueWith (rec : SchemaName → PyVal → Except PyErr PyVal)
    (t : TypeExpr) (v : PyVal) : Except PyErr PyVal :=
  match getOrigin t with
  | Option.none => .ok v
  | some origin =>
    if issubclassBaseSchema origin then
      match origin with
      | .schemaCls s => if hasFromDictAttr s then rec s v else .ok v
      | _ => .ok v
    else .ok v

/-- Embedding of the kwargs-building loop of `BaseSchema.from_dict`:
for each declared field, in declaration order, if its name is a key of
the input mapping, bind the (possibly nested-decoded) value; declared
fields absent from the input and input keys that are not declared
fields are skipped. An error raised while decoding a field's value
propagates immediately. -/
def decodeFieldsWith (rec : SchemaName → PyVal → Except PyErr PyVal) :
    List (String × TypeExpr) → List (String × PyVal) →
    Except PyErr (List (String × PyVal))
  | [], _ => .ok []
  | (n, t) :: rest, m =>
    match pyLookup m n with
    | Option.none => decodeFieldsWith rec rest m
    | some v =>
      match decodeValueWith rec t v with
      | .error e => .error e
      | .ok v2 =>
        match decodeFieldsWith rec rest m with
        | .error e => .error e
        | .ok kw => .ok ((n, v2) :: kw)

/-- Embedding of `cls(**kwargs)` for a dataclass all of whose fields
default to `None`: the resulting `__dict__` binds every declared field
in declaration order, to the kwargs value when supplied and to `None`
otherwise. -/
def mkInstance (s : SchemaName) (kwargs : List (String × PyVal)) : PyVal :=
  .inst (className s)
    ((fieldsOf s).map (fun ft => (ft.1, (pyLookup kwargs ft.1).getD PyVal.none)))

/-- Embedding of `BaseSchema.from_dict`, with explicit fuel standing
for Python's recursion limit. A non-mapping argument is a `TypeError`
(`field_name in data` / `data[field_name]` need a mapping; every call
below passes a mapping). -/
def fromDictF : Nat → SchemaName → PyVal → Except PyErr PyVal
  | 0, _, _ => .error .recursionErr
  | fuel + 1, s, .dict m =>
    match decodeFieldsWith (fromDictF fuel) (fieldsOf s) m with
    | .error e => .error e
    | .ok kw => .ok (mkInstance s kw)
  | _ + 1, _, _ => .error .typeErr

/-- `BaseSchema.from_dict` at Python's default recursion limit. -/
def fromDict (s : SchemaName) (data : PyVal) : Except PyErr PyVal :=
  fromDictF 1000 s data

mutual

/-- Embedding of the inner `unpack` of `BaseSchema.to_dict`: an
enumeration member becomes its underlying string value (`value.value`);
a dataclass instance becomes the dict of its non-`None`,
non-underscore-named fields, each unpacked; a list is unpacked
elementwise; everything else — including a plain `dict` — is returned
unchanged. -/
def unpack : PyVal → PyVal
  | .enum _ v => .str v
  | .inst _ d => .dict (encodeEntries d)
  | .list xs => .list (unpackList xs)
  | .str s => .str s
  | .num q => .num q
  | .bool b => .bool b
  | .none => .none
  | .dict m => .dict m

/-- Elementwise `unpack` over a Python list. -/
def unpackList : List PyVal → List PyVal
  | [] => []
  | v :: vs => unpack v :: unpackList vs

/-- Embedding of the comprehension
`{k: unpack(v) for k, v in d.items() if v is not None and not k.startswith("_")}`
shared by `to_dict` and by `unpack`'s dataclass branch. -/
def encodeEntries : List (String × PyVal) → List (String × PyVal)
  | [] => []
  | (k, v) :: rest =>
    if isNoneVal v || isPrivateName k then encodeEntries rest
    else (k, unpack v) :: encodeEntries rest

end

/-- Embedding of `BaseSchema.to_dict`, applied to an instance's
`__dict__`. -/
def toDict (objDict : List (String × PyVal)) : List (String × PyVal) :=
  encodeEntries objDict

/-- The `__dict__` of an instance constructed by binding each declared
field of a shape to the value a given assignment gives its name. -/
def instanceFields (flds : List (String × TypeExpr)) (vals : String → PyVal) :
    List (String × PyVal) :=
  flds.map (fun ft => (ft.1, vals ft.1))

/-- Example values of `TextGenLengthPenalty.get_sample_params`. -/
def textGenLengthPenaltySampleParams : List (String × PyVal) :=
  [ ("decay_factor", .num (2.5 : Rat)), ("start_index", .num 5) ]

/-- Example values of `ReturnOptionProperties.get_sample_params`. -/
def returnOptionPropertiesSampleParams : List (String × PyVal) :=
  [ ("input_text", .bool true),
    ("generated_tokens", .bool true),
    ("input_tokens", .bool true),
    ("token_logprobs", .bool true),
    ("token_ranks", .bool false),
    ("top_n_tokens", .bool false) ]

/-- Example values of `TextGenParameters.get_sample_params`. The
`decoding_method` entry is `list(TextGenDecodingMethod)[1].value`, the
underlying string of the second member, `"sample"`. -/
def textGenParametersSampleParams : List (String × PyVal) :=
  [ ("decoding_method", .str "sample"),
    ("length_penalty", .dict textGenLengthPenaltySampleParams),
    ("temperature", .num (0.5 : Rat)),
    ("top_p", .num (0.2 : Rat)),
    ("top_k", .num 1),
    ("random_seed", .num 33),
    ("repetition_penalty", .num 2),
    ("min_new_tokens", .num 50),
    ("max_new_tokens", .num 1000),
    ("stop_sequences", .num 200),
    ("time_limit", .num 600000),
    ("truncate_input_tokens", .num 200),
    ("return_options", .dict returnOptionPropertiesSampleParams),
    ("include_stop_sequence", .bool true),
    ("prompt_variables",
      .dict [ ("doc_type", .str "emails"), ("entity_name", .str "Golden Retail") ]) ]

/-- Example values of `TextChatResponseFormat.get_sample_params`; the
`type` entry is `list(TextChatResponseFormatType)[0].value`. -/
def textChatResponseFormatSampleParams : List (String × PyVal) :=
  [ ("type", .str "json_object") ]

/-- Example values of `TextChatParameters.get_sample_params`. -/
def textChatParametersSampleParams : List (String × PyVal) :=
  [ ("frequency_penalty", .num (0.5 : Rat)),
    ("logprobs", .bool true),
    ("top_logprobs", .num 3),
    ("presence_penalty", .num (0.3 : Rat)),
    ("response_format", .dict textChatResponseFormatSampleParams),
    ("temperature", .num (0.7 : Rat)),
    ("max_tokens", .num 100),
    ("time_limit", .num 600000),
    ("top_p", .num (0.9 : Rat)),
    ("n", .num 1) ]

/-- Example values of `RerankReturnOptions.get_sample_params`. -/
def rerankReturnOptionsSampleParams : List (String × PyVal) :=
  [ ("top_n", .num 1), ("inputs", .bool false), ("query", .bool false) ]

/-- Example values of `RerankParameters.get_sample_params`. -/
def rerankParametersSampleParams : List (String × PyVal) :=
  [ ("truncate_input_tokens", .num 100),
    ("return_options", .dict rerankReturnOptionsSampleParams) ]

/-- Embedding of `cls.get_sample_params()`: the base implementation
returns the empty mapping; each concrete shape overrides it. -/
def sampleParams : SchemaName → List (String × PyVal)
  | .baseSchema => []
  | .returnOptionProperties => returnOptionPropertiesSampleParams
  | .textGenParameters => textGenParametersSampleParams
  | .textChatResponseFormat => textChatResponseFormatSampleParams
  | .textChatParameters => textChatParametersSampleParams
  | .rerankReturnOptions => rerankReturnOptionsSampleParams
  | .rerankParameters => rerankParametersSampleParams

/-- Embedding of the `table_data` built by `BaseSchema.show`: one row
per declared field, in declaration order, holding the field name, the
declared type annotation, and `sample_params.get(field_name, "N/A")`.
(The subsequent `tabulate` call renders exactly these rows.) -/
def showTable (s : SchemaName) : List (String × TypeExpr × PyVal) :=
  (fieldsOf s).map
    (fun ft => (ft.1, ft.2, (pyLookup (sampleParams s) ft.1).getD (.str "N/A")))

/-- Rows of the documentation table as the specification words them:
for the shape's declared fields, in declaration order, a row of (field
name, declared type, example value from the provider), with an explicit
placeholder for fields absent from the provider. -/
def describeRows (provider : List (String × PyVal)) :
    List (String × TypeExpr) → List (String × TypeExpr × PyVal)
  | [] => []
  | (n, t) :: rest =>
    (n, t,
      match pyLookup provider n with
      | some ex => ex
      | Option.none => .str "N/A") :: describeRows provider rest

/-- The documentation table described by the specification for a shape:
`describeRows` over the shape's declared fields and example provider. -/
def specDescribeTable (s : SchemaName) : List (String × TypeExpr × PyVal) :=
  describeRows (sampleParams s) (fieldsOf s)

mutual

/-- Values built only from primitives (strings, numbers, booleans) and
lists of such values — no enumeration members, no dataclass instances,
no `None`, no plain dicts. -/
def isPrimOnly : PyVal → Bool
  | .str _ => true
  | .num _ => true
  | .bool _ => true
  | .list xs => isPrimOnlyList xs
  | _ => false

/-- `isPrimOnly` over every element of a list. -/
def isPrimOnlyList : List PyVal → Bool
  | [] => true
  | v :: vs => isPrimOnly v && isPrimOnlyList vs

end

/-- A field binding that is either unset (`None`) or a primitive-only
value. -/
def primOrUnset (v : PyVal) : Bool := isNoneVal v || isPrimOnly v

mutual

/-- Values containing no plain `dict` node (nesting only through lists
and dataclass instances). -/
def dictFree : PyVal → Bool
  | .dict _ => false
  | .list xs => dictFreeList xs
  | .inst _ d => dictFreeEntries d
  | _ => true

/-- `dictFree` over every element of a list. -/
def dictFreeList : List PyVal → Bool
  | [] => true
  | v :: vs => dictFree v && dictFreeList vs

/-- `dictFree` over every value of an association list. -/
def dictFreeEntries : List (String × PyVal) → Bool
  | [] => true
  | (_, v) :: rest => dictFree v && dictFreeEntries rest

end

mutual

/-- Whether a value contains an enumeration member anywhere, including
inside lists, dicts and dataclass instances. -/
def containsEnum : PyVal → Bool
  | .enum _ _ => true
  | .list xs => containsEnumList xs
  | .dict d => containsEnumEntries d
  | .inst _ d => containsEnumEntries d
  | _ => false

/-- `containsEnum` over any element of a list. -/
def containsEnumList : List PyVal → Bool
  | [] => false
  | v :: vs => containsEnum v || containsEnumList vs

/-- `containsEnum` over any value of an association list. -/
def containsEnumEntries : List (String × PyVal) → Bool
  | [] => false
  | (_, v) :: rest => containsEnum v || containsEnumEntries rest

end

mutual

/-- Structural (identity-level) equality of embedded values: two values
are strictly equal only when they are the same constructor with equal
components. In particular an enumeration member is never strictly equal
to a plain string, and a dataclass instance is never strictly equal to
a plain dict. -/
def pyEqStrict : PyVal → PyVal → Bool
  | .str a, .str b => a == b
  | .num a, .num b => a == b
  | .bool a, .bool b => a == b
  | .none, .none => true
  | .enum n1 v1, .enum n2 v2 => n1 == n2 && v1 == v2
  | .list xs, .list ys => pyEqStrictList xs ys
  | .dict d1, .dict d2 => pyEqStrictEntries d1 d2
  | .inst c1 d1, .inst c2 d2 => c1 == c2 && pyEqStrictEntries d1 d2
  | _, _ => false

/-- Pointwise `pyEqStrict` on lists. -/
def pyEqStrictList : List PyVal → List PyVal → Bool
  | [], [] => true
  | x :: xs, y :: ys => pyEqStrict x y && pyEqStrictList xs ys
  | _, _ => false

/-- Pointwise `pyEqStrict` on association lists. -/
def pyEqStrictEntries : List (String × PyVal) → List (String × PyVal) → Bool
  | [], [] => true
  | (k1, v1) :: r1, (k2, v2) :: r2 =>
    k1 == k2 && pyEqStrict v1 v2 && pyEqStrictEntries r1 r2
  | _, _ => false

end

mutual

/-- Modelled from the spec: Python value equality (`==`) for the values
involved, covering `StrEnum`, which is imported from outside the source
file. Per the spec, an enumeration value is a closed-set string constant
tagged with a symbolic name (the `StrEnum` base makes each member a
`str`), so a member compares equal to its underlying string, and two
members compare as their underlying strings. Python booleans also
compare equal to the numbers 0 and 1. Dataclass equality compares class
and then the field tuple pointwise in declaration order. Plain dicts are
compared here pointwise in order; Python dict equality ignores key
order, and the two coincide for the dicts compared in this development,
whose key order is fixed by field declaration order. -/
def pyEq : PyVal → PyVal → Bool
  | .str a, .str b => a == b
  | .str a, .enum _ v => a == v
  | .enum _ v, .str b => v == b
  | .enum _ v1, .enum _ v2 => v1 == v2
  | .num a, .num b => a == b
  | .bool a, .bool b => a == b
  | .bool a, .num b => (if a then (1 : Rat) else 0) == b
  | .num a, .bool b => a == (if b then (1 : Rat) else 0)
  | .none, .none => true
  | .list xs, .list ys => pyEqList xs ys
  | .dict d1, .dict d2 => pyEqEntries d1 d2
  | .inst c1 d1, .inst c2 d2 => c1 == c2 && pyEqEntries d1 d2
  | _, _ => false

/-- Pointwise `pyEq` on lists. -/
def pyEqList : List PyVal → List PyVal → Bool
  | [], [] => true
  | x :: xs, y :: ys => pyEq x y && pyEqList xs ys
  | _, _ => false

/-- Pointwise `pyEq` on association lists. -/
def pyEqEntries : List (String × PyVal) → List (String × PyVal) → Bool
  | [], [] => true
  | (k1, v1) :: r1, (k2, v2) :: r2 =>
    k1 == k2 && pyEq v1 v2 && pyEqEntries r1 r2
  | _, _ => false

end

/-- Whether a declared annotation makes `from_dict` bind the raw value:
true unless `typing.get_origin` yields a `BaseSchema` subclass. -/
def bindsRaw (t : TypeExpr) : Bool :=
  match getOrigin t with
  | some (.schemaCls _) => false
  | _ => true

/-- The kwargs `from_dict` builds when every processed field binds its
raw value: each declared field present in the input, bound unchanged,
in declaration order. -/
def rawKwargs (flds : List (String × TypeExpr)) (m : List (String × PyVal)) :
    List (String × PyVal) :=
  flds.filterMap (fun ft => (pyLookup m ft.1).map (fun v => (ft.1, v)))

/-- The instance `from_dict` actually produces on a mapping input:
every declared field bound to the raw input value under its name, or to
`None` when the name is absent. -/
def decodedInst (s : SchemaName) (m : List (String × PyVal)) : PyVal :=
  .inst (className s)
    ((fieldsOf s).map (fun ft => (ft.1, (pyLookup m ft.1).getD PyVal.none)))

/-- Removal of every entry with a given key from a mapping. -/
def eraseKey (m : List (String × PyVal)) (k : String) : List (String × PyVal) :=
  m.filter (fun kv => kv.1 != k)


/-- The `__dict__` that `TextGenParameters.from_dict` produces on the
input `{"return_options": {"input_text": True}}`: every declared field,
with `return_options` bound to the raw inner mapping. -/
def c1BoundDict : List (String × PyVal) :=
  [ ("decoding_method", .none),
    ("length_penalty", .none),
    ("temperature", .none),
    ("top_p", .none),
    ("top_k", .none),
    ("random_seed", .none),
    ("repetition_penalty", .none),
    ("min_new_tokens", .none),
    ("max_new_tokens", .none),
    ("stop_sequences", .none),
    ("time_limit", .none),
    ("truncate_input_tokens", .none),
    ("return_options", .dict [ ("input_text", .bool true) ]),
    ("include_stop_sequence", .none),
    ("prompt_variables", .none) ]

/-- The instance `ReturnOptionProperties.from_dict` produces on the
inner mapping `{"input_text": True}`. -/
def c1NestedDecoded : PyVal :=
  .inst "ReturnOptionProperties"
    [ ("input_text", .bool true),
      ("generated_tokens", .none),
      ("input_tokens", .none),
      ("token_logprobs", .none),
      ("token_ranks", .none),
      ("top_n_tokens", .none) ]

/-- A `ReturnOptionProperties` instance with only `input_text` set. -/
def ropInputTextDict : List (String × PyVal) :=
  [ ("input_text", .bool true),
    ("generated_tokens", .none),
    ("input_tokens", .none),
    ("token_logprobs", .none),
    ("token_ranks", .none),
    ("top_n_tokens", .none) ]

/-- A `TextGenParameters` instance holding an enumeration member and a
nested `ReturnOptionProperties` instance — within the scope of the
round-trip law as claimed. -/
def c2OriginalDict : List (String × PyVal) :=
  [ ("decoding_method", .enum "SAMPLE" "sample"),
    ("length_penalty", .none),
    ("temperature", .none),
    ("top_p", .none),
    ("top_k", .none),
    ("random_seed", .none),
    ("repetition_penalty", .none),
    ("min_new_tokens", .none),
    ("max_new_tokens", .none),
    ("stop_sequences", .none),
    ("time_limit", .none),
    ("truncate_input_tokens", .none),
    ("return_options", .inst "ReturnOptionProperties" ropInputTextDict),
    ("include_stop_sequence", .none),
    ("prompt_variables", .none) ]

/-- What decoding the encoding of `c2OriginalDict` actually yields: the
enumeration member came back as its underlying string and the nested
instance came back as a plain mapping. -/
def c2RoundDict : List (String × PyVal) :=
  [ ("decoding_method", .str "sample"),
    ("length_penalty", .none),
    ("temperature", .none),
    ("top_p", .none),
    ("top_k", .none),
    ("random_seed", .none),
    ("repetition_penalty", .none),
    ("min_new_tokens", .none),
    ("max_new_tokens", .none),
    ("stop_sequences", .none),
    ("time_limit", .none),
    ("truncate_input_tokens", .none),
    ("return_options", .dict [ ("input_text", .bool true) ]),
    ("include_stop_sequence", .none),
    ("prompt_variables", .none) ]

/-- The example-scenario instance: `decoding_method` bound to the
`SAMPLE` member of `TextGenDecodingMethod`, `temperature` to `0.5`,
`stop_sequences` to `["END"]`, every other field unset. -/
def c5OriginalDict : List (String × PyVal) :=
  [ ("decoding_method", .enum "SAMPLE" "sample"),
    ("length_penalty", .none),
    ("temperature", .num (0.5 : Rat)),
    ("top_p", .none),
    ("top_k", .none),
    ("random_seed", .none),
    ("repetition_penalty", .none),
    ("min_new_tokens", .none),
    ("max_new_tokens", .none),
    ("stop_sequences", .list [ .str "END" ]),
    ("time_limit", .none),
    ("truncate_input_tokens", .none),
    ("return_options", .none),
    ("include_stop_sequence", .none),
    ("prompt_variables", .none) ]

/-- The instance obtained by decoding the encoding of the
example-scenario instance: identical except that `decoding_method`
holds the enumeration's underlying string. -/
def c5DecodedDict : List (String × PyVal) :=
  [ ("decoding_method", .str "sample"),
    ("length_penalty", .none),
    ("temperature", .num (0.5 : Rat)),
    ("top_p", .none),
    ("top_k", .none),
    ("random_seed", .none),
    ("repetition_penalty", .none),
    ("min_new_tokens", .none),
    ("max_new_tokens", .none),
    ("stop_sequences", .list [ .str "END" ]),
    ("time_limit", .none),
    ("truncate_input_tokens", .none),
    ("return_options", .none),
    ("include_stop_sequence", .none),
    ("prompt_variables", .none) ]

theorem eq_none_of_isNoneVal {v : PyVal} (h : isNoneVal v = true) : v = PyVal.none := by
  cases v <;> simp_all [isNoneVal]

mutual

theorem unpack_primOnly : ∀ (v : PyVal), isPrimOnly v = true → unpack v = v
  | .str _, _ => rfl
  | .num _, _ => rfl
  | .bool _, _ => rfl
  | .list xs, h => by
    simp only [unpack]
    rw [unpackList_primOnly xs (by simpa [isPrimOnly] using h)]

theorem unpackList_primOnly : ∀ (xs : List PyVal), isPrimOnlyList xs = true → unpackList xs = xs
  | [], _ => rfl
  | v :: vs, h => by
    have h' : isPrimOnly v = true ∧ isPrimOnlyList vs = true := by
      simpa [isPrimOnlyList, Bool.and_eq_true] using h
    simp only [unpackList]
    rw [unpack_primOnly v h'.1, unpackList_primOnly vs h'.2]

end

mutual

theorem pyEqStrict_refl : ∀ (v : PyVal), pyEqStrict v v = true
  | .str _ => by simp [pyEqStrict]
  | .num _ => by simp [pyEqStrict]
  | .bool _ => by simp [pyEqStrict]
  | .none => rfl
  | .enum _ _ => by simp [pyEqStrict]
  | .list xs => by simp [pyEqStrict, pyEqStrictList_refl xs]
  | .dict d => by simp [pyEqStrict, pyEqStrictEntries_refl d]
  | .inst c d => by simp [pyEqStrict, pyEqStrictEntries_refl d]

theorem pyEqStrictList_refl : ∀ (xs : List PyVal), pyEqStrictList xs xs = true
  | [] => rfl
  | x :: xs => by simp [pyEqStrictList, pyEqStrict_refl x, pyEqStrictList_refl xs]

theorem pyEqStrictEntries_refl : ∀ (d : List (String × PyVal)), pyEqStrictEntries d d = true
  | [] => rfl
  | (k, v) :: r => by simp [pyEqStrictEntries, pyEqStrict_refl v, pyEqStrictEntries_refl r]

end

theorem ne_of_pyEqStrict_false {a b : PyVal} (h : pyEqStrict a b = false) : a ≠ b := by
  intro he
  subst he
  rw [pyEqStrict_refl] at h
  exact Bool.noConfusion h

theorem decodeValueWith_raw (rec : SchemaName → PyVal → Except PyErr PyVal)
    (t : TypeExpr) (v : PyVal) (h : bindsRaw t = true) :
    decodeValueWith rec t v = .ok v := by
  unfold bindsRaw at h
  unfold decodeValueWith
  cases hg : getOrigin t with
  | none => rfl
  | some origin =>
    rw [hg] at h
    cases origin with
    | unionType => rfl
    | listCls => rfl
    | schemaCls s => exact absurd h (by simp)


theorem rawKwargs_cons_absent {m : List (String × PyVal)} {n0 : String} {t0 : TypeExpr}
    {rest : List (String × TypeExpr)} (hl : pyLookup m n0 = Option.none) :
    rawKwargs ((n0, t0) :: rest) m = rawKwargs rest m := by
  simp [rawKwargs, List.filterMap_cons, hl]

theorem rawKwargs_cons_present {m : List (String × PyVal)} {n0 : String} {t0 : TypeExpr}
    {rest : List (String × TypeExpr)} {v : PyVal} (hl : pyLookup m n0 = some v) :
    rawKwargs ((n0, t0) :: rest) m = (n0, v) :: rawKwargs rest m := by
  simp [rawKwargs, List.filterMap_cons, hl]

theorem decodeFieldsWith_raw (rec : SchemaName → PyVal → Except PyErr PyVal) :
    ∀ (flds : List (String × TypeExpr)) (m : List (String × PyVal)),
    (∀ ft ∈ flds, bindsRaw ft.2 = true) →
    decodeFieldsWith rec flds m = .ok (rawKwargs flds m)
  | [], _, _ => rfl
  | (n, t) :: rest, m, h => by
    have ht : bindsRaw t = true := h (n, t) (List.mem_cons_self _ _)
    have hrest := decodeFieldsWith_raw rec rest m (fun ft hft => h ft (List.mem_cons_of_mem _ hft))
    unfold decodeFieldsWith
    cases hl : pyLookup m n with
    | none =>
      rw [hrest, rawKwargs_cons_absent hl]
    | some v =>
      simp only []
      rw [decodeValueWith_raw rec t v ht]
      simp only []
      rw [hrest]
      simp only []
      rw [rawKwargs_cons_present hl]

theorem fieldsBindRaw : ∀ (s : SchemaName), ∀ ft ∈ fieldsOf s, bindsRaw ft.2 = true := by
  intro s
  cases s <;> decide

theorem fieldNamesPublic : ∀ (s : SchemaName), ∀ ft ∈ fieldsOf s, isPrivateName ft.1 = false := by
  intro s
  cases s <;> decide

theorem fieldNamesNodup : ∀ (s : SchemaName), ((fieldsOf s).map Prod.fst).Nodup := by
  intro s
  cases s <;> decide

theorem pyLookup_rawKwargs_notMem :
    ∀ (flds : List (String × TypeExpr)) (m : List (String × PyVal)) (n : String),
    n ∉ flds.map Prod.fst → pyLookup (rawKwargs flds m) n = Option.none
  | [], _, _, _ => rfl
  | (n0, t0) :: rest, m, n, h => by
    have hne : n0 ≠ n := fun he => h (by simp [he])
    have hrest := pyLookup_rawKwargs_notMem rest m n (fun hm => h (by simp [hm]))
    cases hl : pyLookup m n0 with
    | none => rw [rawKwargs_cons_absent hl]; exact hrest
    | some v =>
      rw [rawKwargs_cons_present hl]
      simpa [pyLookup, hne] using hrest

theorem pyLookup_rawKwargs :
    ∀ (flds : List (String × TypeExpr)) (m : List (String × PyVal)) (n : String),
    (flds.map Prod.fst).Nodup → n ∈ flds.map Prod.fst →
    pyLookup (rawKwargs flds m) n = pyLookup m n
  | [], _, n, _, hmem => absurd hmem (by simp)
  | (n0, t0) :: rest, m, n, hnd, hmem => by
    have hnd' : n0 ∉ rest.map Prod.fst ∧ (rest.map Prod.fst).Nodup := by
      simpa [List.nodup_cons] using hnd
    by_cases he : n0 = n
    · subst he
      cases hl : pyLookup m n0 with
      | none =>
        rw [rawKwargs_cons_absent hl, pyLookup_rawKwargs_notMem rest m n0 hnd'.1]
      | some v =>
        rw [rawKwargs_cons_present hl]
        simp [pyLookup]
    · have hmem' : n ∈ rest.map Prod.fst := by
        have hsplit : n = n0 ∨ ∃ x, (n, x) ∈ rest := by simpa using hmem
        rcases hsplit with h1 | ⟨x, hx⟩
        · exact absurd h1.symm he
        · exact List.mem_map_of_mem Prod.fst hx
      have hrest := pyLookup_rawKwargs rest m n hnd'.2 hmem'
      cases hl : pyLookup m n0 with
      | none => rw [rawKwargs_cons_absent hl]; exact hrest
      | some v =>
        rw [rawKwargs_cons_present hl]
        simpa [pyLookup, he] using hrest

theorem mkInstance_rawKwargs (s : SchemaName) (m : List (String × PyVal)) :
    mkInstance s (rawKwargs (fieldsOf s) m) = decodedInst s m := by
  unfold mkInstance decodedInst
  congr 1
  apply List.map_congr_left
  intro ft hft
  rw [pyLookup_rawKwargs (fieldsOf s) m ft.1 (fieldNamesNodup s)
        (List.mem_map_of_mem Prod.fst hft)]

theorem fromDictF_succ (fuel : Nat) (s : SchemaName) (m : List (String × PyVal)) :
    fromDictF (fuel + 1) s (.dict m) = .ok (decodedInst s m) := by
  unfold fromDictF
  rw [decodeFieldsWith_raw (fromDictF fuel) (fieldsOf s) m (fieldsBindRaw s)]
  simp only []
  rw [mkInstance_rawKwargs]

theorem fromDict_dict (s : SchemaName) (m : List (String × PyVal)) :
    fromDict s (.dict m) = .ok (decodedInst s m) := by
  unfold fromDict
  exact fromDictF_succ 999 s m

theorem decodedInst_congr (s : SchemaName) (m1 m2 : List (String × PyVal))
    (h : ∀ ft ∈ fieldsOf s,
      (pyLookup m1 ft.1).getD PyVal.none = (pyLookup m2 ft.1).getD PyVal.none) :
    decodedInst s m1 = decodedInst s m2 := by
  unfold decodedInst
  congr 1
  apply List.map_congr_left
  intro ft hft
  rw [h ft hft]

theorem pyLookup_eraseKey :
    ∀ (m : List (String × PyVal)) (k n : String), n ≠ k →
    pyLookup (eraseKey m k) n = pyLookup m n
  | [], _, _, _ => rfl
  | (k0, v0) :: rest, k, n, h => by
    have hrest := pyLookup_eraseKey rest k n h
    unfold eraseKey at hrest ⊢
    by_cases hk : k0 = k
    · subst hk
      have hne : ¬ (k0 = n) := fun he => h he.symm
      simp only [List.filter_cons, bne_self_eq_false]
      rw [if_neg (by simp)]
      rw [hrest]
      simp [pyLookup, hne]
    · have hbne : (k0 != k) = true := by simp [bne, hk]
      simp only [List.filter_cons, hbne, if_true]
      by_cases he : k0 = n
      · simp [pyLookup, he]
      · simp [pyLookup, he, hrest]

theorem encodeEntries_inst_lookup_none (vals : String → PyVal) (n : String)
    (hn : isNoneVal (vals n) = true) :
    ∀ (flds : List (String × TypeExpr)),
    pyLookup (encodeEntries (instanceFields flds vals)) n = Option.none
  | [] => rfl
  | (n0, t0) :: rest => by
    have hrest := encodeEntries_inst_lookup_none vals n hn rest
    unfold instanceFields at hrest ⊢
    simp only [List.map_cons]
    unfold encodeEntries
    cases hc : isNoneVal (vals n0) || isPrivateName n0 with
    | true => exact hrest
    | false =>
      have hne : ¬ (n0 = n) := by
        intro he
        subst he
        rw [hn] at hc
        simp at hc
      simp [pyLookup, hne, hrest]

theorem encodeEntries_inst_lookup_some (vals : String → PyVal) (n : String) :
    ∀ (flds : List (String × TypeExpr)),
    (∀ ft ∈ flds, isPrivateName ft.1 = false) →
    isNoneVal (vals n) = false → n ∈ flds.map Prod.fst →
    pyLookup (encodeEntries (instanceFields flds vals)) n = some (unpack (vals n))
  | [], _, _, hmem => absurd hmem (by simp)
  | (n0, t0) :: rest, hpub, hn, hmem => by
    unfold instanceFields
    simp only [List.map_cons]
    unfold encodeEntries
    by_cases he : n0 = n
    · subst he
      rw [hn, hpub (n0, t0) (List.mem_cons_self _ _)]
      simp [pyLookup]
    · have hmem' : n ∈ rest.map Prod.fst := by
        have hsplit : n = n0 ∨ ∃ x, (n, x) ∈ rest := by simpa using hmem
        rcases hsplit with h1 | ⟨x, hx⟩
        · exact absurd h1.symm he
        · exact List.mem_map_of_mem Prod.fst hx
      have hrest := encodeEntries_inst_lookup_some vals n rest
        (fun ft hft => hpub ft (List.mem_cons_of_mem _ hft)) hn hmem'
      unfold instanceFields at hrest
      cases hc : isNoneVal (vals n0) || isPrivateName n0 with
      | true => exact hrest
      | false => simp [pyLookup, he, hrest]

theorem encodeEntries_inst_keys (vals : String → PyVal) :
    ∀ (flds : List (String × TypeExpr)),
    (∀ ft ∈ flds, isPrivateName ft.1 = false) →
    (encodeEntries (instanceFields flds vals)).map Prod.fst
      = flds.filterMap
          (fun ft => if isNoneVal (vals ft.1) then Option.none else some ft.1)
  | [], _ => rfl
  | (n0, t0) :: rest, hpub => by
    have hrest := encodeEntries_inst_keys vals rest
      (fun ft hft => hpub ft (List.mem_cons_of_mem _ hft))
    unfold instanceFields at hrest ⊢
    simp only [List.map_cons]
    unfold encodeEntries
    rw [hpub (n0, t0) (List.mem_cons_self _ _)]
    cases hc : isNoneVal (vals n0) with
    | true => simp [List.filterMap_cons, hc, hrest]
    | false => simp [List.filterMap_cons, hc, hrest]

mutual

theorem unpack_noEnum : ∀ (v : PyVal), dictFree v = true → containsEnum (unpack v) = false
  | .str _, _ => rfl
  | .num _, _ => rfl
  | .bool _, _ => rfl
  | .none, _ => rfl
  | .enum _ _, _ => rfl
  | .dict _, h => by simp [dictFree] at h
  | .list xs, h => by
    simp only [unpack, containsEnum]
    exact unpackList_noEnum xs (by simpa [dictFree] using h)
  | .inst _ d, h => by
    simp only [unpack, containsEnum]
    exact encodeEntries_noEnum d (by simpa [dictFree] using h)

theorem unpackList_noEnum :
    ∀ (xs : List PyVal), dictFreeList xs = true → containsEnumList (unpackList xs) = false
  | [], _ => rfl
  | v :: vs, h => by
    have h' : dictFree v = true ∧ dictFreeList vs = true := by
      simpa [dictFreeList, Bool.and_eq_true] using h
    simp only [unpackList, containsEnumList]
    rw [unpack_noEnum v h'.1, unpackList_noEnum vs h'.2]
    rfl

theorem encodeEntries_noEnum :
    ∀ (d : List (String × PyVal)), dictFreeEntries d = true →
    containsEnumEntries (encodeEntries d) = false
  | [], _ => rfl
  | (k, v) :: rest, h => by
    have h' : dictFree v = true ∧ dictFreeEntries rest = true := by
      simpa [dictFreeEntries, Bool.and_eq_true] using h
    unfold encodeEntries
    cases hc : isNoneVal v || isPrivateName k with
    | true => exact encodeEntries_noEnum rest h'.2
    | false =>
      simp only [containsEnumEntries]
      rw [unpack_noEnum v h'.1, encodeEntries_noEnum rest h'.2]
      rfl

end

theorem describeRows_eq_map (provider : List (String × PyVal)) :
    ∀ (flds : List (String × TypeExpr)),
    describeRows provider flds
      = flds.map (fun ft => (ft.1, ft.2, (pyLookup provider ft.1).getD (.str "N/A")))
  | [] => rfl
  | (n, t) :: rest => by
    simp only [describeRows, List.map_cons, describeRows_eq_map provider rest]
    cases hl : pyLookup provider n <;> simp [hl, Option.getD]

theorem showTable_eq_specDescribeTable (s : SchemaName) :
    showTable s = specDescribeTable s := by
  unfold showTable specDescribeTable
  rw [describeRows_eq_map]

/-- C1: the claim says a field whose declared type unions a nested
schema shape exposing `from_dict` is recursively decoded. Evaluating
the code at the failing input shows otherwise: `typing.get_origin` on
the union annotation of `return_options` yields `types.UnionType`,
which is not a `BaseSchema` subclass, so `TextGenParameters.from_dict`
binds the raw inner mapping unchanged — while
`ReturnOptionProperties.from_dict` on that inner mapping produces a
genuinely different value (an instance, not a mapping). -/
theorem c1_union_nested_field_bound_raw :
    fromDict .textGenParameters
        (.dict [ ("return_options", .dict [ ("input_text", .bool true) ]) ])
      = .ok (.inst "TextGenParameters" c1BoundDict)
    ∧ fromDict .returnOptionProperties (.dict [ ("input_text", .bool true) ])
      = .ok c1NestedDecoded
    ∧ PyVal.dict [ ("input_text", .bool true) ] ≠ c1NestedDecoded :=
  ⟨rfl, rfl,
    @ne_of_pyEqStrict_false (PyVal.dict [ ("input_text", .bool true) ])
      c1NestedDecoded rfl⟩

/-- C2 counterexample: an instance holding an enumeration member and a
nested schema instance — squarely within the claimed scope — does not
round-trip to an instance with identical bound fields and values:
`from_dict (to_dict x)` yields the underlying string and a plain
mapping instead. -/
theorem c2_roundtrip_counterexample :
    fromDict .textGenParameters (.dict (toDict c2OriginalDict))
      ≠ .ok (.inst "TextGenParameters" c2OriginalDict) := by
  intro hEq
  have h1 : fromDict .textGenParameters (.dict (toDict c2OriginalDict))
      = .ok (.inst "TextGenParameters" c2RoundDict) := rfl
  rw [h1] at hEq
  exact @ne_of_pyEqStrict_false (.inst "TextGenParameters" c2RoundDict)
    (.inst "TextGenParameters" c2OriginalDict) rfl (Except.ok.inj hEq)

/-- C2 as amended: for every shape and every instance whose bound
fields hold only primitives or (nested) sequences of primitives,
`from_dict (to_dict x)` yields an instance with identical bound fields
and values. -/
theorem c2_roundtrip_primitives (s : SchemaName) (vals : String → PyVal)
    (h : ∀ ft ∈ fieldsOf s, primOrUnset (vals ft.1) = true) :
    fromDict s (.dict (toDict (instanceFields (fieldsOf s) vals)))
      = .ok (.inst (className s) (instanceFields (fieldsOf s) vals)) := by
  simp only [toDict]
  rw [fromDict_dict]
  unfold decodedInst
  refine congrArg Except.ok ?_
  refine congrArg (PyVal.inst (className s)) ?_
  conv_rhs => unfold instanceFields
  apply List.map_congr_left
  intro ft hft
  refine congrArg (fun w => (ft.1, w)) ?_
  cases hn : isNoneVal (vals ft.1) with
  | true =>
    rw [encodeEntries_inst_lookup_none vals ft.1 hn (fieldsOf s)]
    exact (eq_none_of_isNoneVal hn).symm
  | false =>
    have hprim : isPrimOnly (vals ft.1) = true := by
      have hp := h ft hft
      unfold primOrUnset at hp
      rw [hn] at hp
      simpa using hp
    rw [encodeEntries_inst_lookup_some vals ft.1 (fieldsOf s) (fieldNamesPublic s)
      hn (List.mem_map_of_mem Prod.fst hft)]
    simp [Option.getD, unpack_primOnly _ hprim]

/-- Witness for the amended C2 at a concrete assignment. -/
theorem c2_roundtrip_primitives_witness :
    fromDict .textGenParameters
        (.dict (toDict (instanceFields (fieldsOf .textGenParameters)
          (fun n => if n = "decoding_method" then .str "greedy" else .none))))
      = .ok (.inst "TextGenParameters" (instanceFields (fieldsOf .textGenParameters)
          (fun n => if n = "decoding_method" then .str "greedy" else .none))) :=
  c2_roundtrip_primitives _ _ (by decide)

/-- C3: the key set of `to_dict` of an instance is exactly the declared
fields bound to a non-`None` value, in declaration order — unset fields
never appear, while fields bound to falsy values such as `False`, `0`
or `""` are kept, since the code filters with `v is not None`. -/
theorem c3_encode_keys_exactly_bound (s : SchemaName) (vals : String → PyVal) :
    (toDict (instanceFields (fieldsOf s) vals)).map Prod.fst
      = (fieldsOf s).filterMap
          (fun ft => if isNoneVal (vals ft.1) then Option.none else some ft.1) := by
  simp only [toDict]
  exact encodeEntries_inst_keys vals (fieldsOf s) (fieldNamesPublic s)

/-- C4: `unpack` sends an enumeration member to its underlying string
value (never its symbolic name), and on any value free of plain dicts
(nesting only through instances and sequences) the encoding contains no
enumeration member at any depth. -/
theorem c4_enum_encodes_to_underlying_string (nm sv : String) (v : PyVal)
    (h : dictFree v = true) :
    unpack (PyVal.enum nm sv) = PyVal.str sv ∧ containsEnum (unpack v) = false :=
  ⟨rfl, unpack_noEnum v h⟩

/-- Witness for C4 at an instance nesting enumeration members both
directly and inside a sequence. -/
theorem c4_enum_encodes_to_underlying_string_witness :
    unpack (PyVal.enum "SAMPLE" "sample") = PyVal.str "sample"
    ∧ containsEnum (unpack (PyVal.inst "TextGenParameters"
        [ ("decoding_method", PyVal.enum "SAMPLE" "sample"),
          ("stop_sequences", PyVal.list [ PyVal.enum "GREEDY" "greedy" ]) ])) = false :=
  c4_enum_encodes_to_underlying_string "SAMPLE" "sample" _ rfl

/-- C5: the example-scenario instance encodes to exactly the claimed
mapping, and decoding that mapping reproduces the original instance up
to Python value equality: the decoded `decoding_method` holds the
enumeration's underlying string, which as a string-valued constant
equals the member it came from. -/
theorem c5_example_scenario :
    toDict c5OriginalDict
      = [ ("decoding_method", .str "sample"),
          ("temperature", .num (0.5 : Rat)),
          ("stop_sequences", .list [ .str "END" ]) ]
    ∧ fromDict .textGenParameters (.dict (toDict c5OriginalDict))
      = .ok (.inst "TextGenParameters" c5DecodedDict)
    ∧ pyEq (.inst "TextGenParameters" c5DecodedDict)
        (.inst "TextGenParameters" c5OriginalDict) = true := by
  refine ⟨rfl, rfl, ?_⟩
  simp [c5DecodedDict, c5OriginalDict, pyEq, pyEqEntries, pyEqList]

/-- C6: keys of the input mapping that are not declared fields are
silently ignored — decoding a mapping and decoding the same mapping
with every entry under an undeclared key removed give the same result,
whatever values those entries held. -/
theorem c6_unknown_keys_ignored (s : SchemaName) (k : String)
    (m : List (String × PyVal)) (h : ∀ ft ∈ fieldsOf s, ft.1 ≠ k) :
    fromDict s (.dict m) = fromDict s (.dict (eraseKey m k)) := by
  rw [fromDict_dict, fromDict_dict]
  exact congrArg Except.ok
    (decodedInst_congr s m (eraseKey m k)
      (fun ft hft => by rw [pyLookup_eraseKey m k ft.1 (h ft hft)]))

/-- Witness for C6: an undeclared key bound to an arbitrary value. -/
theorem c6_unknown_keys_ignored_witness :
    fromDict .textGenParameters
        (.dict [ ("temperature", .str "warm"), ("totally_unknown_key", .num 123) ])
      = fromDict .textGenParameters
          (.dict (eraseKey
            [ ("temperature", .str "warm"), ("totally_unknown_key", .num 123) ]
            "totally_unknown_key")) :=
  c6_unknown_keys_ignored _ _ _ (by decide)

/-- C7: for a field declared as a sequence of a nested schema shape
(alone or inside a union), the per-field step of `from_dict` returns
the raw sequence unchanged — `get_origin` yields `list` (or
`types.UnionType`), not the schema class, so decode never recurses into
sequence members. -/
theorem c7_sequence_of_schemas_bound_raw (fuel : Nat) (s' : SchemaName)
    (raws : List PyVal) :
    decodeValueWith (fromDictF fuel) (TypeExpr.listT (.schemaT s')) (.list raws)
      = .ok (.list raws)
    ∧ decodeValueWith (fromDictF fuel)
        (TypeExpr.unionT [ .listT (.schemaT s'), .noneT ]) (.list raws)
      = .ok (.list raws) :=
  ⟨rfl, rfl⟩

/-- C8: `show` is deterministic — any two tables it produces for the
same shape are equal — and its table is exactly the specified one: one
row per declared field in declaration order, holding the field name,
the declared type, and the provider's example value or the `"N/A"`
placeholder when the provider lacks the field. -/
theorem c8_describe_deterministic (s : SchemaName)
    (t1 t2 : List (String × TypeExpr × PyVal))
    (h1 : showTable s = t1) (h2 : showTable s = t2) :
    t1 = t2 ∧ t1 = specDescribeTable s := by
  subst h1
  subst h2
  exact ⟨rfl, showTable_eq_specDescribeTable s⟩

/-- Witness for C8 at a concrete shape. -/
theorem c8_describe_deterministic_witness :
    showTable .returnOptionProperties = showTable .returnOptionProperties
    ∧ showTable .returnOptionProperties = specDescribeTable .returnOptionProperties :=
  c8_describe_deterministic _ _ _ rfl rfl

/-- C9: binding a declared field explicitly to `None` in the input
mapping is indistinguishable from leaving it out: the missing field is
filled with the constructor's `None` default, which is exactly the
explicit value. -/
theorem c9_explicit_null_equals_absent (s : SchemaName) (f : String)
    (m : List (String × PyVal)) (h1 : f ∈ (fieldsOf s).map Prod.fst)
    (h2 : pyLookup m f = Option.none) :
    fromDict s (.dict ((f, PyVal.none) :: m)) = fromDict s (.dict m) := by
  rw [fromDict_dict, fromDict_dict]
  refine congrArg Except.ok (decodedInst_congr s _ m (fun ft hft => ?_))
  by_cases he : f = ft.1
  · have hm : pyLookup m ft.1 = Option.none := he ▸ h2
    simp [pyLookup, he, hm]
  · simp [pyLookup, he]

/-- Witness for C9 at a concrete mapping. -/
theorem c9_explicit_null_equals_absent_witness :
    fromDict .textGenParameters
        (.dict [ ("temperature", PyVal.none), ("top_k", .num 3) ])
      = fromDict .textGenParameters (.dict [ ("top_k", .num 3) ]) :=
  c9_explicit_null_equals_absent _ _ _ (by decide) rfl

/-- C10: `unpack` returns a plain dict completely unchanged — nothing
inside it is flattened, so enumeration members, instances or `None`
values stored in a dict-typed field such as `prompt_variables` appear
in the `to_dict` output exactly as stored. -/
theorem c10_plain_dict_passes_through (entries : List (String × PyVal)) :
    unpack (PyVal.dict entries) = PyVal.dict entries
    ∧ toDict [ ("prompt_variables", PyVal.dict entries) ]
      = [ ("prompt_variables", PyVal.dict entries) ] :=
  ⟨rfl, rfl⟩
